import Mathlib

/-
Verification of the m2ools repository: a shallow embedding of the jitter
primitive (m2jitter.py, m2ools.py), the retry engine (m2retry.py), the
reachback parser and the result cache (m2cache.py), together with theorems
settling the specification claims about them.

Randomness is modelled by explicit oracle streams: `random.gauss` draws are
a `List ℚ` consumed by the rejection-sampling loop (running out of draws is
`Option.none`, the case where the Python loop would still be sampling), and
`random.choice` over `range(n)` is an oracle value taken modulo `n`.
Python exceptions are an explicit error type; `datetime` values are a
six-field record over ℤ with a civil-calendar seconds conversion.
-/

namespace M2ools

/-- Python exceptions raised by the library code, by kind. -/
inductive PyErr where
  | typeError (msg : String)
  | valueError (msg : String)
  | nameError (msg : String)
  | overflowError (msg : String)
  | fileNotFoundError (path : String)
  deriving DecidableEq, Repr

/-- A Python value that is either numeric (int or float, both modelled as ℚ)
or of some other, non-numeric type. -/
inductive PyVal where
  | num (q : ℚ)
  | nonnum (txt : String)
  deriving DecidableEq, Repr

/-- Decidable equality for `Except`, needed to evaluate embedded runs. -/
instance {ε α : Type} [DecidableEq ε] [DecidableEq α] : DecidableEq (Except ε α)
  | .ok a, .ok b => if h : a = b then .isTrue (by rw [h]) else .isFalse (by simpa using h)
  | .error a, .error b => if h : a = b then .isTrue (by rw [h]) else .isFalse (by simpa using h)
  | .ok _, .error _ => .isFalse (by simp)
  | .error _, .ok _ => .isFalse (by simp)

/-! ### Jitter primitive (m2jitter.py and the jitter section of m2ools.py) -/

/-- `JITTER_SIGMA_COUNT = 4`, the fixed shape constant of both modules. -/
def JITTER_SIGMA_COUNT : ℚ := 4

/-- The rejection-sampling loop shared by both `get_jitter` implementations:
keep drawing while `abs(jitter_amount) >= std * JITTER_SIGMA_COUNT`, i.e.
accept the first draw whose magnitude is strictly below `std * 4`.  The
draw stream is finite here; exhausting it models a run still inside the
Python `while` loop. -/
def acceptDraw (std : ℚ) : List ℚ → Option ℚ
  | [] => none
  | d :: ds => if |d| < std * JITTER_SIGMA_COUNT then some d else acceptDraw std ds

namespace M2jitter

/-- `m2jitter.get_jitter(val, jitterfactor)`: no argument checks; returns 0
when `jitterfactor <= 0 or val == 0`, otherwise rejection-samples from a
normal distribution with `std = abs(val) * jitterfactor / 4`. -/
def get_jitter (val jitterfactor : ℚ) (draws : List ℚ) : Option ℚ :=
  if jitterfactor ≤ 0 ∨ val = 0 then some 0
  else acceptDraw (|val| * jitterfactor / JITTER_SIGMA_COUNT) draws

/-- `m2jitter.get_jittered(val, jitterfactor) = val + get_jitter(val, jitterfactor)`. -/
def get_jittered (val jitterfactor : ℚ) (draws : List ℚ) : Option ℚ :=
  (get_jitter val jitterfactor draws).map (fun j => val + j)

end M2jitter

namespace M2oolsJ

/-- `m2ools.get_jitter(val, jitterfactor)`: first checks that `val` is numeric
(raising `TypeError` otherwise) and returns 0 for `val == 0`; only then checks
`jitterfactor` (raising `TypeError` if non-numeric, `ValueError` if negative,
returning 0 if zero); finally rejection-samples as in m2jitter. -/
def get_jitter (val jitterfactor : PyVal) (draws : List ℚ) : Except PyErr (Option ℚ) :=
  match val with
  | .nonnum _ => .error (.typeError "Argument to jitterfactor must be of type int or float.")
  | .num v =>
    if v = 0 then .ok (some 0)
    else
      match jitterfactor with
      | .nonnum _ => .error (.typeError "Argument to jitterfactor must be of type int or float.")
      | .num jf =>
        if jf < 0 then .error (.valueError "Argument to jitterfactor must not be negative.")
        else if jf = 0 then .ok (some 0)
        else .ok (acceptDraw (|v| * jf / JITTER_SIGMA_COUNT) draws)

/-- `m2ools.get_jittered(val, jitterfactor) = val + get_jitter(val, jitterfactor)`;
`get_jitter` is evaluated (and may raise) before the addition. -/
def get_jittered (val jitterfactor : PyVal) (draws : List ℚ) : Except PyErr (Option ℚ) := do
  let j ← get_jitter val jitterfactor draws
  match val with
  | .num v => pure (j.map (fun d => v + d))
  | .nonnum _ => .error (.typeError "unsupported operand types for +")

end M2oolsJ

/-- An accepted draw of the rejection loop is strictly below the crop bound. -/
theorem acceptDraw_lt {std d : ℚ} : ∀ {draws : List ℚ},
    acceptDraw std draws = some d → |d| < std * JITTER_SIGMA_COUNT := by
  intro draws
  induction draws with
  | nil => intro h; simp [acceptDraw] at h
  | cons x xs ih =>
    intro h
    by_cases hx : |x| < std * JITTER_SIGMA_COUNT
    · simp [acceptDraw, hx] at h
      simpa [h] using hx
    · simp [acceptDraw, hx] at h
      exact ih h

/-- C8: for every `baseValue ≠ 0` and `jitterFactor > 0`, the jittered value
`baseValue + acceptedDraw` lies inside the crop window
`[baseValue - |baseValue| * jitterFactor, baseValue + |baseValue| * jitterFactor]`:
every draw with magnitude at least `std * SIGMA_COUNT = |baseValue| * jitterFactor`
is rejected and resampled, so the accepted sample satisfies the bound strictly
and the boundary value itself is never produced. -/
theorem c8_jitter_crop_bound (val jf d : ℚ) (draws : List ℚ)
    (hv : val ≠ 0) (hj : 0 < jf)
    (h : M2jitter.get_jitter val jf draws = some d) :
    val - |val| * jf < val + d ∧ val + d < val + |val| * jf := by
  unfold M2jitter.get_jitter at h
  rw [if_neg (by push_neg; exact ⟨hj, hv⟩)] at h
  have hb := acceptDraw_lt h
  have hstd : |val| * jf / JITTER_SIGMA_COUNT * JITTER_SIGMA_COUNT = |val| * jf := by
    rw [div_mul_cancel₀]
    norm_num [JITTER_SIGMA_COUNT]
  rw [hstd] at hb
  rw [abs_lt] at hb
  constructor <;> linarith [hb.1, hb.2]

/-- Witness for C8 at `val = 8`, `jf = 1`, draws `[100, 3]` (the first draw is
rejected by the crop bound, the second accepted). -/
theorem c8_jitter_crop_bound_witness :
    (8 : ℚ) - |(8 : ℚ)| * 1 < 8 + 3 ∧ (8 : ℚ) + 3 < 8 + |(8 : ℚ)| * 1 :=
  c8_jitter_crop_bound 8 1 3 [100, 3] (by norm_num) (by norm_num)
    (by norm_num [M2jitter.get_jitter, acceptDraw, JITTER_SIGMA_COUNT, abs])

/-- C9 counterexample: `m2ools.get_jitter(0, -1)` returns `0` (and the wrapped
operation returns the base value unchanged) instead of failing, because the
`val == 0` early return is checked before the negative-`jitterfactor` check;
this refutes "fails with an invalid-argument error whenever jitterFactor is
negative". -/
theorem c9_counterexample :
    M2oolsJ.get_jitter (.num 0) (.num (-1)) [] = Except.ok (some 0) ∧
      M2oolsJ.get_jittered (.num 0) (.num (-1)) [] = Except.ok (some 0) := by
  constructor <;> norm_num [M2oolsJ.get_jitter, M2oolsJ.get_jittered]

/-- C9 (amended): the jitter operation fails with an invalid-argument error
whenever `baseValue` is non-numeric, or `baseValue` is a nonzero number and
`jitterFactor` is negative or non-numeric; for `baseValue = 0`, or numeric
`baseValue` with `jitterFactor = 0`, it returns `baseValue` unchanged. -/
theorem c9_jitter_arg_errors (v : ℚ) (jf : PyVal) (s : String) (draws : List ℚ) :
    (∃ e, M2oolsJ.get_jittered (.nonnum s) jf draws = Except.error e) ∧
    (v ≠ 0 → ∃ e, M2oolsJ.get_jittered (.num v) (.nonnum s) draws = Except.error e) ∧
    (∀ q : ℚ, q < 0 → v ≠ 0 →
      ∃ e, M2oolsJ.get_jittered (.num v) (.num q) draws = Except.error e) ∧
    M2oolsJ.get_jittered (.num 0) jf draws = Except.ok (some 0) ∧
    M2oolsJ.get_jittered (.num v) (.num 0) draws = Except.ok (some v) := by
  refine ⟨⟨.typeError "Argument to jitterfactor must be of type int or float.", rfl⟩, ?_, ?_, ?_, ?_⟩
  · intro hv
    refine ⟨.typeError "Argument to jitterfactor must be of type int or float.", ?_⟩
    simp [M2oolsJ.get_jittered, M2oolsJ.get_jitter, hv]
  · intro q hq hv
    refine ⟨.valueError "Argument to jitterfactor must not be negative.", ?_⟩
    simp [M2oolsJ.get_jittered, M2oolsJ.get_jitter, hv, hq]
  · simp [M2oolsJ.get_jittered, M2oolsJ.get_jitter]
  · by_cases hv : v = 0
    · subst hv; simp [M2oolsJ.get_jittered, M2oolsJ.get_jitter]
    · simp [M2oolsJ.get_jittered, M2oolsJ.get_jitter, hv]

/-- Witness for C9's amended theorem at `baseValue = 2`, `jitterFactor = -3`. -/
theorem c9_jitter_arg_errors_witness :
    (-3 : ℚ) < 0 ∧ (2 : ℚ) ≠ 0 ∧
      ∃ e, M2oolsJ.get_jittered (.num 2) (.num (-3)) [] = Except.error e :=
  ⟨by norm_num, by norm_num,
    (c9_jitter_arg_errors 2 (.num 0) "x" []).2.2.1 (-3) (by norm_num) (by norm_num)⟩

/-! ### Retry engine (m2retry.py) -/

/-- The decorator arguments of `m2retry` (the validator is kept separate since
it is a function).  `maxtries` is a Python int, the numeric policy fields are
ints or floats modelled as ℚ, the flags are bools. -/
structure RetryPolicy where
  maxtries : ℤ
  delay : ℚ
  jitterfactor : ℚ
  backoff : Bool
  boexpbase : ℚ
  borandom : Bool
  deriving DecidableEq, Repr

/-- The argument validation and normalisation performed by `m2retry` before
building the decorator: range checks that raise `ValueError`, then the
forcing chain `not delay -> jitterfactor = 0, backoff = False`;
`not backoff -> boexpbase = 1`; `boexpbase == 1 -> borandom = False`. -/
def m2retryValidate (p : RetryPolicy) : Except PyErr RetryPolicy :=
  if p.maxtries < 1 then
    .error (.valueError "Argument to maxtries must be equal or greater than 1.")
  else if p.delay < 0 then
    .error (.valueError "Argument to delay must be equal or greater than 0.")
  else if p.jitterfactor < 0 ∨ 1 < p.jitterfactor then
    .error (.valueError "Argument to jitterfactor can range only from 0 to 1 (both inclusive).")
  else if p.boexpbase < 1 then
    .error (.valueError "Argument to boexpbase must be equal or greater than 1.")
  else
    let p1 := if p.delay = 0 then { p with jitterfactor := 0, backoff := false } else p
    let p2 := if p1.backoff = false then { p1 with boexpbase := 1 } else p1
    let p3 := if p2.boexpbase = 1 then { p2 with borandom := false } else p2
    .ok p3

/-- The backoff exponent: `failcount - 1` deterministically, or
`random.choice(range(failcount))` when `borandom` is set; the random choice is
an oracle value reduced modulo the list length, so it always lies in
`[0, failcount - 1]`. -/
def exponentFn (borandom : Bool) (expDraw : ℕ → ℕ) (failcount : ℕ) : ℕ :=
  if borandom then expDraw failcount % failcount else failcount - 1

/-- `get_waiting_time(boexpbase, failcount, delay)` as decorated by
`@m2jitter(jitterfactor=jitterfactor)`: the raw wait is
`boexpbase ** exponent(failcount) * delay` and the decorator returns
`get_jittered(raw, jitterfactor)`. -/
def get_waiting_time (boexpbase delay jitterfactor : ℚ) (borandom : Bool)
    (expDraw : ℕ → ℕ) (jitterDraws : ℕ → List ℚ) (failcount : ℕ) : Option ℚ :=
  let base := boexpbase ^ exponentFn borandom expDraw failcount * delay
  (M2jitter.get_jitter base jitterfactor (jitterDraws failcount)).map (fun j => base + j)

/-- Outcome of a retry-wrapped call: a validated result, an exception raised
by the wrapped operation itself, or `MaxTriesExhaustedError` carrying the
operation name, the rendered arguments and the fail count. -/
inductive RetryResult (ε α : Type) where
  | ok (a : α)
  | opError (e : ε)
  | exhausted (funcName argsStr : String) (failcount : ℕ)
  deriving DecidableEq, Repr

/-- The retry loop of the `m2retry` wrapper.  `results k` is what the wrapped
operation does on its `k`-th invocation (a value or a raised exception),
`waitFor fc` the waiting time produced by `get_waiting_time` after the
`fc`-th failure (`none` when its jitter sampling never accepts a draw).
Returns the outcome, the list of sleep durations, and the number of
invocations of the wrapped operation; `none` if some needed wait never
materialises. -/
def retryLoop {ε α : Type} (validator : α → Bool) (results : ℕ → Except ε α)
    (waitFor : ℕ → Option ℚ) (delay : ℚ) (funcName argsStr : String) :
    ℕ → ℕ → ℕ → Option (RetryResult ε α × List ℚ × ℕ)
  | 0, fc, _ => some (.exhausted funcName argsStr fc, [], 0)
  | r + 1, fc, k =>
    match results k with
    | .error e => some (.opError e, [], 1)
    | .ok a =>
      if validator a then some (.ok a, [], 1)
      else
        (if delay = 0 ∨ r = 0 then some [] else (waitFor (fc + 1)).map (fun w => [w])).bind
          fun ws =>
            (retryLoop validator results waitFor delay funcName argsStr r (fc + 1) (k + 1)).map
              fun t => (t.1, ws ++ t.2.1, t.2.2 + 1)

/-- The `j`-th invocation returns a value that the validator rejects. -/
def rejectedAt {ε α : Type} (validator : α → Bool) (results : ℕ → Except ε α) (j : ℕ) : Prop :=
  ∃ b, results j = Except.ok b ∧ validator b = false

/-- A completed loop run never invokes the operation more often than the
remaining-tries budget it started with. -/
theorem retryLoop_calls_le {ε α : Type} (validator : α → Bool) (results : ℕ → Except ε α)
    (waitFor : ℕ → Option ℚ) (delay : ℚ) (fn as : String) :
    ∀ (r fc k : ℕ) (o : RetryResult ε α) (s : List ℚ) (n : ℕ),
      retryLoop validator results waitFor delay fn as r fc k = some (o, s, n) → n ≤ r := by
  intro r
  induction r with
  | zero =>
    intro fc k o s n h
    simp only [retryLoop, Option.some.injEq, Prod.mk.injEq] at h
    omega
  | succ r ih =>
    intro fc k o s n h
    cases hres : results k with
    | error e =>
      simp only [retryLoop, hres, Option.some.injEq, Prod.mk.injEq] at h
      omega
    | ok a =>
      by_cases hv : validator a
      · simp only [retryLoop, hres, hv, if_true, Option.some.injEq, Prod.mk.injEq] at h
        omega
      · simp only [retryLoop, hres, hv, Bool.false_eq_true, if_false,
          Option.bind_eq_some] at h
        obtain ⟨ws, -, h2⟩ := h
        rw [Option.map_eq_some'] at h2
        obtain ⟨⟨o9, s9, n9⟩, ht, hteq⟩ := h2
        have h3 : o9 = o ∧ ws ++ s9 = s ∧ n9 + 1 = n := by simpa using hteq
        have h4 := ih (fc + 1) (k + 1) o9 s9 n9 ht
        omega

/-- A loop run with a positive budget invokes the operation at least once. -/
theorem retryLoop_calls_pos {ε α : Type} (validator : α → Bool) (results : ℕ → Except ε α)
    (waitFor : ℕ → Option ℚ) (delay : ℚ) (fn as : String)
    (r fc k : ℕ) (o : RetryResult ε α) (s : List ℚ) (n : ℕ)
    (h : retryLoop validator results waitFor delay fn as (r + 1) fc k = some (o, s, n)) :
    1 ≤ n := by
  cases hres : results k with
  | error e =>
    simp only [retryLoop, hres, Option.some.injEq, Prod.mk.injEq] at h
    omega
  | ok a =>
    by_cases hv : validator a
    · simp only [retryLoop, hres, hv, if_true, Option.some.injEq, Prod.mk.injEq] at h
      omega
    · simp only [retryLoop, hres, hv, Bool.false_eq_true, if_false,
        Option.bind_eq_some] at h
      obtain ⟨ws, -, h2⟩ := h
      rw [Option.map_eq_some'] at h2
      obtain ⟨⟨o9, s9, n9⟩, -, hteq⟩ := h2
      have h3 : o9 = o ∧ ws ++ s9 = s ∧ n9 + 1 = n := by simpa using hteq
      omega

/-- If the first `i` invocations are rejected and the `(i+1)`-st returns a
value the validator accepts (with budget remaining), a completed run returns
that value after exactly `i + 1` invocations. -/
theorem retryLoop_first_accept {ε α : Type} (validator : α → Bool) (results : ℕ → Except ε α)
    (waitFor : ℕ → Option ℚ) (delay : ℚ) (fn as : String) :
    ∀ (r fc k i : ℕ) (a : α) (o : RetryResult ε α) (s : List ℚ) (n : ℕ),
      retryLoop validator results waitFor delay fn as r fc k = some (o, s, n) →
      i < r →
      (∀ j, j < i → rejectedAt validator results (k + j)) →
      results (k + i) = Except.ok a → validator a = true →
      o = RetryResult.ok a ∧ n = i + 1 := by
  intro r
  induction r with
  | zero => intro fc k i a o s n _ hi; omega
  | succ r ih =>
    intro fc k i a o s n h hi hrej hacc hval
    cases i with
    | zero =>
      rw [Nat.add_zero] at hacc
      simp only [retryLoop, hacc, hval, if_true, Option.some.injEq, Prod.mk.injEq] at h
      exact ⟨h.1.symm, by omega⟩
    | succ i =>
      obtain ⟨b, hb, hvb⟩ := hrej 0 (Nat.succ_pos i)
      rw [Nat.add_zero] at hb
      simp only [retryLoop, hb, hvb, Bool.false_eq_true, if_false, Option.bind_eq_some] at h
      obtain ⟨ws, -, h2⟩ := h
      rw [Option.map_eq_some'] at h2
      obtain ⟨⟨o9, s9, n9⟩, ht, hteq⟩ := h2
      have h3 : o9 = o ∧ ws ++ s9 = s ∧ n9 + 1 = n := by simpa using hteq
      have hrej9 : ∀ j, j < i → rejectedAt validator results (k + 1 + j) := by
        intro j hj
        have := hrej (j + 1) (by omega)
        rwa [show k + (j + 1) = k + 1 + j by omega] at this
      have hacc9 : results (k + 1 + i) = Except.ok a := by
        rwa [show k + 1 + i = k + (i + 1) by omega]
      have h5 := ih (fc + 1) (k + 1) i a o9 s9 n9 ht (by omega) hrej9 hacc9 hval
      refine ⟨?_, by omega⟩
      rw [← h3.1, h5.1]

/-- If the first `i` invocations are rejected and the `(i+1)`-st raises (with
budget remaining), a completed run propagates that exception after exactly
`i + 1` invocations. -/
theorem retryLoop_first_error {ε α : Type} (validator : α → Bool) (results : ℕ → Except ε α)
    (waitFor : ℕ → Option ℚ) (delay : ℚ) (fn as : String) :
    ∀ (r fc k i : ℕ) (e : ε) (o : RetryResult ε α) (s : List ℚ) (n : ℕ),
      retryLoop validator results waitFor delay fn as r fc k = some (o, s, n) →
      i < r →
      (∀ j, j < i → rejectedAt validator results (k + j)) →
      results (k + i) = Except.error e →
      o = RetryResult.opError e ∧ n = i + 1 := by
  intro r
  induction r with
  | zero => intro fc k i e o s n _ hi; omega
  | succ r ih =>
    intro fc k i e o s n h hi hrej herr
    cases i with
    | zero =>
      rw [Nat.add_zero] at herr
      simp only [retryLoop, herr, Option.some.injEq, Prod.mk.injEq] at h
      exact ⟨h.1.symm, by omega⟩
    | succ i =>
      obtain ⟨b, hb, hvb⟩ := hrej 0 (Nat.succ_pos i)
      rw [Nat.add_zero] at hb
      simp only [retryLoop, hb, hvb, Bool.false_eq_true, if_false, Option.bind_eq_some] at h
      obtain ⟨ws, -, h2⟩ := h
      rw [Option.map_eq_some'] at h2
      obtain ⟨⟨o9, s9, n9⟩, ht, hteq⟩ := h2
      have h3 : o9 = o ∧ ws ++ s9 = s ∧ n9 + 1 = n := by simpa using hteq
      have hrej9 : ∀ j, j < i → rejectedAt validator results (k + 1 + j) := by
        intro j hj
        have := hrej (j + 1) (by omega)
        rwa [show k + (j + 1) = k + 1 + j by omega] at this
      have herr9 : results (k + 1 + i) = Except.error e := by
        rwa [show k + 1 + i = k + (i + 1) by omega]
      have h5 := ih (fc + 1) (k + 1) i e o9 s9 n9 ht (by omega) hrej9 herr9
      refine ⟨?_, by omega⟩
      rw [← h3.1, h5.1]

/-- If every invocation in the budget is rejected, a completed run raises the
exhaustion error carrying the operation name, the rendered arguments and the
total fail count, after exactly `r` invocations. -/
theorem retryLoop_exhaust {ε α : Type} (validator : α → Bool) (results : ℕ → Except ε α)
    (waitFor : ℕ → Option ℚ) (delay : ℚ) (fn as : String) :
    ∀ (r fc k : ℕ) (o : RetryResult ε α) (s : List ℚ) (n : ℕ),
      retryLoop validator results waitFor delay fn as r fc k = some (o, s, n) →
      (∀ j, j < r → rejectedAt validator results (k + j)) →
      o = RetryResult.exhausted fn as (fc + r) ∧ n = r := by
  intro r
  induction r with
  | zero =>
    intro fc k o s n h _
    simp only [retryLoop, Option.some.injEq, Prod.mk.injEq] at h
    exact ⟨by rw [← h.1, Nat.add_zero], by omega⟩
  | succ r ih =>
    intro fc k o s n h hrej
    obtain ⟨b, hb, hvb⟩ := hrej 0 (Nat.succ_pos r)
    rw [Nat.add_zero] at hb
    simp only [retryLoop, hb, hvb, Bool.false_eq_true, if_false, Option.bind_eq_some] at h
    obtain ⟨ws, -, h2⟩ := h
    rw [Option.map_eq_some'] at h2
    obtain ⟨⟨o9, s9, n9⟩, ht, hteq⟩ := h2
    have h3 : o9 = o ∧ ws ++ s9 = s ∧ n9 + 1 = n := by simpa using hteq
    have hrej9 : ∀ j, j < r → rejectedAt validator results (k + 1 + j) := by
      intro j hj
      have := hrej (j + 1) (by omega)
      rwa [show k + (j + 1) = k + 1 + j by omega] at this
    have h5 := ih (fc + 1) (k + 1) o9 s9 n9 ht hrej9
    refine ⟨?_, by omega⟩
    rw [← h3.1, h5.1, show fc + 1 + r = fc + (r + 1) by omega]

/-- Sleep-trace characterisation of a completed run: with `delay = 0` no sleep
happens at all; with `delay ≠ 0` there is one sleep per failure except after
the final attempt, and the `i`-th sleep is the wait produced for fail count
`fc + i + 1`. -/
theorem retryLoop_sleeps {ε α : Type} (validator : α → Bool) (results : ℕ → Except ε α)
    (waitFor : ℕ → Option ℚ) (delay : ℚ) (fn as : String) :
    ∀ (r fc k : ℕ) (o : RetryResult ε α) (s : List ℚ) (n : ℕ),
      retryLoop validator results waitFor delay fn as r fc k = some (o, s, n) →
      (delay = 0 → s = []) ∧
      (delay ≠ 0 → s.length = n - 1 ∧ ∀ i, i < s.length → waitFor (fc + i + 1) = s[i]?) := by
  intro r
  induction r with
  | zero =>
    intro fc k o s n h
    simp only [retryLoop, Option.some.injEq, Prod.mk.injEq] at h
    obtain ⟨-, hs, hn⟩ := h
    subst hs
    refine ⟨fun _ => rfl, fun _ => ⟨by simp only [List.length_nil]; omega, ?_⟩⟩
    intro i hi
    simp at hi
  | succ r ih =>
    intro fc k o s n h
    cases hres : results k with
    | error e =>
      simp only [retryLoop, hres, Option.some.injEq, Prod.mk.injEq] at h
      obtain ⟨-, hs, hn⟩ := h
      subst hs
      refine ⟨fun _ => rfl, fun _ => ⟨by simp only [List.length_nil]; omega, ?_⟩⟩
      intro i hi
      simp at hi
    | ok a =>
      by_cases hv : validator a
      · simp only [retryLoop, hres, hv, if_true, Option.some.injEq, Prod.mk.injEq] at h
        obtain ⟨-, hs, hn⟩ := h
        subst hs
        refine ⟨fun _ => rfl, fun _ => ⟨by simp only [List.length_nil]; omega, ?_⟩⟩
        intro i hi
        simp at hi
      · by_cases hd : delay = 0
        · subst hd
          simp only [retryLoop, hres, hv, Bool.false_eq_true, if_false, eq_self_iff_true,
            true_or, if_true, Option.some_bind, Option.map_eq_some'] at h
          obtain ⟨⟨o9, s9, n9⟩, ht, hteq⟩ := h
          have h3 : o9 = o ∧ s9 = s ∧ n9 + 1 = n := by simpa using hteq
          have hs9 := (ih (fc + 1) (k + 1) o9 s9 n9 ht).1 rfl
          refine ⟨fun _ => ?_, fun hd9 => absurd rfl hd9⟩
          rw [← h3.2.1, hs9]
        · by_cases hr : r = 0
          · subst hr
            simp only [retryLoop, hres, hv, Bool.false_eq_true, if_false, eq_self_iff_true,
              or_true, if_true, Option.some_bind, Option.map_eq_some'] at h
            obtain ⟨⟨o9, s9, n9⟩, ht, hteq⟩ := h
            simp only [retryLoop, Option.some.injEq, Prod.mk.injEq] at ht
            obtain ⟨-, hs9, hn9⟩ := ht
            have h3 : o9 = o ∧ s9 = s ∧ n9 + 1 = n := by simpa using hteq
            refine ⟨fun hd0 => absurd hd0 hd, fun _ => ⟨?_, ?_⟩⟩
            · rw [← h3.2.1, ← hs9]
              simp only [List.length_nil]
              omega
            · intro i hi
              rw [← h3.2.1, ← hs9] at hi
              simp at hi
          · have hcond : ¬(delay = 0 ∨ r = 0) := by
              push_neg
              exact ⟨hd, hr⟩
            simp only [retryLoop, hres, hv, Bool.false_eq_true, if_false, if_neg hcond,
              Option.bind_eq_some] at h
            obtain ⟨ws, hws, h2⟩ := h
            rw [Option.map_eq_some'] at hws
            obtain ⟨w, hw, hwe⟩ := hws
            rw [Option.map_eq_some'] at h2
            obtain ⟨⟨o9, s9, n9⟩, ht, hteq⟩ := h2
            subst hwe
            have h3 : o9 = o ∧ w :: s9 = s ∧ n9 + 1 = n := by simpa using hteq
            obtain ⟨r9, hr9⟩ : ∃ r9, r = r9 + 1 := ⟨r - 1, by omega⟩
            have hn9 : 1 ≤ n9 := by
              rw [hr9] at ht
              exact retryLoop_calls_pos validator results waitFor delay fn as
                r9 (fc + 1) (k + 1) o9 s9 n9 ht
            have ihs := (ih (fc + 1) (k + 1) o9 s9 n9 ht).2 hd
            refine ⟨fun hd0 => absurd hd0 hd, fun _ => ⟨?_, ?_⟩⟩
            · rw [← h3.2.1]
              simp only [List.length_cons]
              omega
            · intro i hi
              rw [← h3.2.1] at hi ⊢
              cases i with
              | zero => simpa using hw
              | succ i =>
                have hlen : i < s9.length := by
                  simp only [List.length_cons] at hi
                  omega
                have h6 := ihs.2 i hlen
                rw [show fc + (i + 1) + 1 = fc + 1 + i + 1 by omega]
                simpa using h6

/-- C4: a retry-wrapped operation with a valid policy is invoked at most
`maxtries` times; the first validator-accepted result is returned immediately
(the loop stops after exactly that invocation); if every result in the budget
is rejected, a `MaxTriesExhaustedError` naming the operation and the rendered
arguments of the call is raised.  In particular, with a validator accepting
only the 5th invocation result, `maxtries = 5` returns that result after 5
invocations and `maxtries = 4` raises exhaustion after 4. -/
theorem c4_retry_first_accepted {ε α : Type} (validator : α → Bool) (results : ℕ → Except ε α)
    (waitFor : ℕ → Option ℚ) (delay : ℚ) (fn as : String) (maxtries : ℕ)
    (o : RetryResult ε α) (s : List ℚ) (n : ℕ)
    (hrun : retryLoop validator results waitFor delay fn as maxtries 0 0 = some (o, s, n)) :
    n ≤ maxtries ∧
    (∀ i a, i < maxtries → (∀ j, j < i → rejectedAt validator results j) →
      results i = Except.ok a → validator a = true → o = RetryResult.ok a ∧ n = i + 1) ∧
    ((∀ j, j < maxtries → rejectedAt validator results j) →
      o = RetryResult.exhausted fn as maxtries ∧ n = maxtries) ∧
    retryLoop (fun x => decide (x = 4)) (fun j => (Except.ok j : Except Unit ℕ)) (fun _ => some 0)
      0 "myfunc" "" 5 0 0 = some (.ok 4, [], 5) ∧
    retryLoop (fun x => decide (x = 4)) (fun j => (Except.ok j : Except Unit ℕ)) (fun _ => some 0)
      0 "myfunc" "" 4 0 0 = some (.exhausted "myfunc" "" 4, [], 4) := by
  refine ⟨retryLoop_calls_le validator results waitFor delay fn as maxtries 0 0 o s n hrun,
    ?_, ?_, by decide, by decide⟩
  · intro i a hi hrej hacc hval
    refine retryLoop_first_accept validator results waitFor delay fn as maxtries 0 0 i a o s n
      hrun hi ?_ ?_ hval
    · intro j hj
      simpa using hrej j hj
    · simpa using hacc
  · intro hrej
    have := retryLoop_exhaust validator results waitFor delay fn as maxtries 0 0 o s n hrun
      (fun j hj => by simpa using hrej j hj)
    simpa using this

/-- Witness for C4 with the concrete maxtries-4 all-rejected run. -/
theorem c4_retry_first_accepted_witness :
    RetryResult.exhausted "myfunc" "" 4 = (RetryResult.exhausted "myfunc" "" 4 : RetryResult Unit ℕ)
      ∧ (4 : ℕ) = 4 :=
  (c4_retry_first_accepted (fun x => decide (x = 4)) (fun j => (Except.ok j : Except Unit ℕ))
      (fun _ => some 0) 0 "myfunc" "" 4 (.exhausted "myfunc" "" 4) [] 4 (by decide)).2.2.1
    (fun j hj => ⟨j, rfl, by simp only [decide_eq_false_iff_not]; omega⟩)

/-- C5: with `delay > 0`, the sleep after the `k`-th consecutive validation
failure (attempts remaining) is the jittered value
`jitter(backoffBase ^ exponent * delay, jitterFactor)` where the exponent is
`failcount - 1` deterministically, or drawn from `{0, ..., failcount - 1}`
when `randomBackoffExponent` is set; there is one sleep per failure except
after the final attempt (`sleeps = calls - 1`). -/
theorem c5_retry_backoff_sleeps {ε α : Type} (validator : α → Bool) (results : ℕ → Except ε α)
    (boexpbase delay jitterfactor : ℚ) (borandom : Bool)
    (expDraw : ℕ → ℕ) (jitterDraws : ℕ → List ℚ)
    (fn as : String) (maxtries : ℕ) (o : RetryResult ε α) (s : List ℚ) (n : ℕ)
    (hdelay : 0 < delay)
    (hrun : retryLoop validator results
      (get_waiting_time boexpbase delay jitterfactor borandom expDraw jitterDraws) delay fn as
      maxtries 0 0 = some (o, s, n)) :
    s.length = n - 1 ∧
    ∀ i, i < s.length →
      ∃ j, M2jitter.get_jitter (boexpbase ^ exponentFn borandom expDraw (i + 1) * delay)
            jitterfactor (jitterDraws (i + 1)) = some j ∧
        s[i]? = some (boexpbase ^ exponentFn borandom expDraw (i + 1) * delay + j) ∧
        (borandom = false → exponentFn borandom expDraw (i + 1) = i) ∧
        (borandom = true → exponentFn borandom expDraw (i + 1) < i + 1) := by
  have hd : delay ≠ 0 := ne_of_gt hdelay
  have hs := (retryLoop_sleeps validator results
    (get_waiting_time boexpbase delay jitterfactor borandom expDraw jitterDraws) delay fn as
    maxtries 0 0 o s n hrun).2 hd
  refine ⟨hs.1, ?_⟩
  intro i hi
  have hw := hs.2 i hi
  rw [show 0 + i + 1 = i + 1 by omega] at hw
  have hsome := List.getElem?_eq_getElem hi
  rw [hsome] at hw
  unfold get_waiting_time at hw
  dsimp only at hw
  rw [Option.map_eq_some'] at hw
  obtain ⟨j, hj, hje⟩ := hw
  refine ⟨j, hj, by rw [hsome, ← hje], fun hbr => ?_, fun hbr => ?_⟩
  · simp [exponentFn, hbr]
  · simp only [exponentFn, hbr, if_true]
    exact Nat.mod_lt _ (Nat.succ_pos i)

/-- Witness for C5: base 2, delay 1, jitter factor 0, deterministic exponent,
validator accepting the 3rd result; the two sleeps are 1 and 2 seconds. -/
theorem c5_retry_backoff_sleeps_witness : ([1, 2] : List ℚ).length = 3 - 1 :=
  (c5_retry_backoff_sleeps (fun x => decide (x = 2)) (fun j => (Except.ok j : Except Unit ℕ))
      2 1 0 false (fun _ => 0) (fun _ => []) "f" "" 3 (.ok 2) [1, 2] 3 (by norm_num)
      (by norm_num [retryLoop, get_waiting_time, exponentFn, M2jitter.get_jitter])).1

/-- C6: if the wrapped operation itself raises on some attempt (after any
number of validator rejections), the retry engine propagates that exception
immediately: no further invocation happens and no sleep follows the raising
attempt (with `delay = 0` no sleep happens at all; otherwise exactly one per
preceding rejection). -/
theorem c6_retry_op_error_propagates {ε α : Type} (validator : α → Bool)
    (results : ℕ → Except ε α) (waitFor : ℕ → Option ℚ) (delay : ℚ) (fn as : String)
    (maxtries i : ℕ) (e : ε) (o : RetryResult ε α) (s : List ℚ) (n : ℕ)
    (hrun : retryLoop validator results waitFor delay fn as maxtries 0 0 = some (o, s, n))
    (hi : i < maxtries)
    (hrej : ∀ j, j < i → rejectedAt validator results j)
    (herr : results i = Except.error e) :
    o = RetryResult.opError e ∧ n = i + 1 ∧
      (delay = 0 → s = []) ∧ (delay ≠ 0 → s.length = i) := by
  have h1 := retryLoop_first_error validator results waitFor delay fn as maxtries 0 0 i e o s n
    hrun hi (fun j hj => by simpa using hrej j hj) (by simpa using herr)
  have h2 := retryLoop_sleeps validator results waitFor delay fn as maxtries 0 0 o s n hrun
  refine ⟨h1.1, h1.2, h2.1, fun hd => ?_⟩
  have := (h2.2 hd).1
  omega

/-- Witness for C6: first result rejected, second invocation raises. -/
theorem c6_retry_op_error_propagates_witness :
    RetryResult.opError "boom" = (RetryResult.opError "boom" : RetryResult String ℕ) ∧
      (2 : ℕ) = 1 + 1 ∧ ((0 : ℚ) = 0 → ([] : List ℚ) = []) ∧
      ((0 : ℚ) ≠ 0 → ([] : List ℚ).length = 1) := by
  refine c6_retry_op_error_propagates (fun x => decide (x = 99))
    (fun j => if j = 0 then Except.ok 7 else Except.error "boom") (fun _ => some 0) 0 "f" "" 3 1
    "boom" (.opError "boom") [] 2 (by decide) (by omega) ?_ (by decide)
  intro j hj
  have h0 : j = 0 := by omega
  subst h0
  exact ⟨7, rfl, by decide⟩

/-- C7: a policy constructed with `delay = 0` has `jitterfactor` forced to 0
and `backoff` forced off; one with `backoff` off has `boexpbase` forced to 1;
one with `boexpbase = 1` has `borandom` forced off; `delay` itself is kept,
so with `delay = 0` the wrapper loop never sleeps, whatever the supplied
jitter and backoff settings were. -/
theorem c7_policy_forcing (p q : RetryPolicy) (h : m2retryValidate p = Except.ok q) :
    (p.delay = 0 → q.jitterfactor = 0 ∧ q.backoff = false) ∧
    (p.backoff = false → q.boexpbase = 1) ∧
    (p.boexpbase = 1 → q.borandom = false) ∧
    q.delay = p.delay ∧
    (p.delay = 0 → ∀ (ε α : Type) (validator : α → Bool) (results : ℕ → Except ε α)
      (waitFor : ℕ → Option ℚ) (fn as : String) (r fc k : ℕ) (o : RetryResult ε α)
      (s : List ℚ) (n : ℕ),
      retryLoop validator results waitFor q.delay fn as r fc k = some (o, s, n) → s = []) := by
  have h1 : ¬ p.maxtries < 1 := by
    intro hc
    simp [m2retryValidate, hc] at h
  have h2 : ¬ p.delay < 0 := by
    intro hc
    simp [m2retryValidate, h1, hc] at h
  have h3 : ¬ (p.jitterfactor < 0 ∨ 1 < p.jitterfactor) := by
    intro hc
    simp only [m2retryValidate, if_neg h1, if_neg h2, if_pos hc] at h
    exact Except.noConfusion h
  have h4 : ¬ p.boexpbase < 1 := by
    intro hc
    simp only [m2retryValidate, if_neg h1, if_neg h2, if_neg h3, if_pos hc] at h
    exact Except.noConfusion h
  simp only [m2retryValidate, if_neg h1, if_neg h2, if_neg h3, if_neg h4,
    Except.ok.injEq] at h
  have hdel : q.delay = p.delay := by
    rw [← h]
    by_cases hd : p.delay = 0 <;> by_cases hb : p.backoff <;>
      by_cases hbe : p.boexpbase = 1 <;> simp [hd, hb, hbe]
  refine ⟨?_, ?_, ?_, hdel, ?_⟩
  · intro hd
    rw [← h]
    simp [hd]
  · intro hb
    rw [← h]
    by_cases hd : p.delay = 0 <;> simp [hd, hb]
  · intro hbe
    rw [← h]
    by_cases hd : p.delay = 0 <;> by_cases hb : p.backoff <;> simp [hd, hb, hbe]
  · intro hd ε α validator results waitFor fn as r fc k o s n hrun
    rw [hdel, hd] at hrun
    exact (retryLoop_sleeps validator results waitFor 0 fn as r fc k o s n hrun).1 rfl

/-- Witness for C7 at the policy `(maxtries 3, delay 0, jitterfactor 1,
backoff on, boexpbase 2, borandom on)`, which normalises to
`(3, 0, 0, off, 1, off)`. -/
theorem c7_policy_forcing_witness :
    (RetryPolicy.mk 3 0 0 false 1 false).jitterfactor = 0 ∧
      (RetryPolicy.mk 3 0 0 false 1 false).backoff = false :=
  (c7_policy_forcing (RetryPolicy.mk 3 0 1 true 2 true) (RetryPolicy.mk 3 0 0 false 1 false)
    (by norm_num [m2retryValidate])).1 rfl

/-! ### Calendar and datetime model (Python datetime at second granularity) -/

/-- A Python `datetime.datetime` at second granularity (the cache and parser
never touch microseconds). -/
structure Datetime where
  year : ℤ
  month : ℤ
  day : ℤ
  hour : ℤ
  minute : ℤ
  second : ℤ
  deriving DecidableEq, Repr

/-- Gregorian leap year, as in Python's calendar. -/
def isLeap (y : ℤ) : Bool :=
  (Int.emod y 4 == 0 && Int.emod y 100 != 0) || Int.emod y 400 == 0

/-- Days in a Gregorian month. -/
def daysInMonth (y m : ℤ) : ℤ :=
  if m = 2 then (if isLeap y then 29 else 28)
  else if m = 4 ∨ m = 6 ∨ m = 9 ∨ m = 11 then 30
  else 31

/-- The argument ranges accepted by the `datetime.datetime` constructor
(`MINYEAR = 1`, `MAXYEAR = 9999`). -/
def validDatetime (y m d hh mm ss : ℤ) : Prop :=
  1 ≤ y ∧ y ≤ 9999 ∧ 1 ≤ m ∧ m ≤ 12 ∧ 1 ≤ d ∧ d ≤ daysInMonth y m ∧
    0 ≤ hh ∧ hh ≤ 23 ∧ 0 ≤ mm ∧ mm ≤ 59 ∧ 0 ≤ ss ∧ ss ≤ 59

instance validDatetime.dec (y m d hh mm ss : ℤ) : Decidable (validDatetime y m d hh mm ss) := by
  unfold validDatetime
  infer_instance

/-- `datetime.datetime(*dt_args)`: range-checks every field and raises
`ValueError` when one is out of range. -/
def mkDatetime (y m d hh mm ss : ℤ) : Except PyErr Datetime :=
  if validDatetime y m d hh mm ss then .ok ⟨y, m, d, hh, mm, ss⟩
  else .error (.valueError "datetime argument out of range")

/-- Days since 1970-01-01 of a Gregorian date (civil-calendar conversion). -/
def daysFromCivil (y m d : ℤ) : ℤ :=
  let yy := if m ≤ 2 then y - 1 else y
  let era := Int.ediv yy 400
  let yoe := yy - era * 400
  let mp := if 2 < m then m - 3 else m + 9
  let doy := Int.ediv (153 * mp + 2) 5 + d - 1
  let doe := yoe * 365 + Int.ediv yoe 4 - Int.ediv yoe 100 + doy
  era * 146097 + doe - 719468

/-- Inverse of `daysFromCivil`: the Gregorian date of a day number. -/
def civilFromDays (z0 : ℤ) : ℤ × ℤ × ℤ :=
  let z := z0 + 719468
  let era := Int.ediv z 146097
  let doe := z - era * 146097
  let yoe := Int.ediv (doe - Int.ediv doe 1460 + Int.ediv doe 36524 - Int.ediv doe 146096) 365
  let y := yoe + era * 400
  let doy := doe - (365 * yoe + Int.ediv yoe 4 - Int.ediv yoe 100)
  let mp := Int.ediv (5 * doy + 2) 153
  let d := doy - Int.ediv (153 * mp + 2) 5 + 1
  let m := if mp < 10 then mp + 3 else mp - 9
  (if m ≤ 2 then y + 1 else y, m, d)

/-- Seconds since the epoch; Python datetime comparison agrees with the order
of this value on valid datetimes. -/
def Datetime.toSeconds (dt : Datetime) : ℤ :=
  daysFromCivil dt.year dt.month dt.day * 86400 + dt.hour * 3600 + dt.minute * 60 + dt.second

/-- The datetime with a given epoch-second count. -/
def fromSeconds (s : ℤ) : Datetime :=
  let days := Int.ediv s 86400
  let rem := Int.emod s 86400
  let c := civilFromDays days
  ⟨c.1, c.2.1, c.2.2, Int.ediv rem 3600, Int.ediv (Int.emod rem 3600) 60, Int.emod rem 60⟩

/-- Seconds of `datetime.min = 0001-01-01 00:00:00`. -/
def dtMinSeconds : ℤ := Datetime.toSeconds ⟨1, 1, 1, 0, 0, 0⟩

/-- Seconds of `datetime.max` (at second granularity) `9999-12-31 23:59:59`. -/
def dtMaxSeconds : ℤ := Datetime.toSeconds ⟨9999, 12, 31, 23, 59, 59⟩

/-- `now - timedelta(...)` with the delta in seconds; Python raises
`OverflowError` when the result falls outside the representable range. -/
def subSeconds (now : Datetime) (delta : ℤ) : Except PyErr Datetime :=
  let s := now.toSeconds - delta
  if s < dtMinSeconds ∨ dtMaxSeconds < s then .error (.overflowError "date value out of range")
  else .ok (fromSeconds s)

example : civilFromDays 0 = (1970, 1, 1) := by decide
example : daysFromCivil 1970 1 1 = 0 := by decide
example : daysFromCivil 2000 3 1 = 11017 := by decide
example : civilFromDays 11017 = (2000, 3, 1) := by decide
example : civilFromDays (daysFromCivil 2020 2 29) = (2020, 2, 29) := by decide
example : fromSeconds (Datetime.toSeconds ⟨2021, 12, 31, 23, 59, 59⟩ - 1)
    = ⟨2021, 12, 31, 23, 59, 58⟩ := by decide
example : fromSeconds (Datetime.toSeconds ⟨2022, 1, 1, 0, 0, 0⟩ - 86400)
    = ⟨2021, 12, 31, 0, 0, 0⟩ := by decide

/-! ### Reachback parser (`get_dt` in m2cache.py / m2ools.py) -/

/-- Parse exactly `k` leading decimal digits, returning their value and the
rest of the string (`none` if fewer digits are available). -/
def takeExactAux : ℕ → ℕ → List Char → Option (ℕ × List Char)
  | 0, acc, s => some (acc, s)
  | _ + 1, _, [] => none
  | k + 1, acc, c :: s =>
    if c.isDigit then takeExactAux k (acc * 10 + (c.toNat - 48)) s else none

/-- Parse exactly `k` leading decimal digits. -/
def takeExact (k : ℕ) (s : List Char) : Option (ℕ × List Char) :=
  takeExactAux k 0 s

/-- Matcher for the tail `(?:\D(\d{1,2}))?` repeated `n` times followed by `$`,
with the regex backtracking order: each optional group first tries a
non-digit separator and two digits, then one digit, then is skipped; the
whole string must be consumed. -/
def matchTail : ℕ → List Char → Option (List (Option ℕ))
  | 0, [] => some []
  | 0, _ :: _ => none
  | n + 1, s =>
    (match s with
     | [] => none
     | c :: rest =>
       if c.isDigit then none
       else
         (do
           let x ← takeExact 2 rest
           let gs ← matchTail n x.2
           some (some x.1 :: gs))
         <|>
         (do
           let x ← takeExact 1 rest
           let gs ← matchTail n x.2
           some (some x.1 :: gs)))
    <|> (matchTail n s).map (fun gs => none :: gs)

/-- `re.match` of the anchored pattern
`(\d{1,4})(?:\D(\d{1,2}))?(?:\D(\d{1,2}))?(?:\D(\d{1,2}))?(?:\D(\d{1,2}))?(?:\D(\d{1,2}))?$`:
a greedy 1-4 digit year followed by five optional separator-digit groups and
the end of the string, with full backtracking. -/
def matchDatetime (s : List Char) : Option (ℕ × List (Option ℕ)) :=
  (do let x ← takeExact 4 s; let gs ← matchTail 5 x.2; some (x.1, gs))
  <|> (do let x ← takeExact 3 s; let gs ← matchTail 5 x.2; some (x.1, gs))
  <|> (do let x ← takeExact 2 s; let gs ← matchTail 5 x.2; some (x.1, gs))
  <|> (do let x ← takeExact 1 s; let gs ← matchTail 5 x.2; some (x.1, gs))

/-- The time units of the relative reachback grammar. -/
inductive TUnit where
  | year
  | month
  | week
  | day
  | hour
  | minute
  | second
  deriving DecidableEq, Repr

/-- The unit words in the alternation order of the pattern
`(\d+) *(year|month|week|day|hour|minute|second)s?`. -/
def unitWords : List (String × TUnit) :=
  [("year", .year), ("month", .month), ("week", .week), ("day", .day),
   ("hour", .hour), ("minute", .minute), ("second", .second)]

/-- Greedily read a maximal run of decimal digits (value accumulator style). -/
def takeMaxDigits : ℕ → List Char → ℕ × List Char
  | acc, [] => (acc, [])
  | acc, c :: s =>
    if c.isDigit then takeMaxDigits (acc * 10 + (c.toNat - 48)) s else (acc, c :: s)

/-- Drop a run of space characters (the pattern between count and unit is
`\x20*`, literal spaces only). -/
def dropSpaces : List Char → List Char
  | ' ' :: s => dropSpaces s
  | s => s

/-- Match one of the unit words as a literal prefix. -/
def matchUnitWord (s : List Char) : Option (TUnit × List Char) :=
  (unitWords.filterMap fun p =>
    if p.1.toList.isPrefixOf s then some (p.2, s.drop p.1.length) else none).head?

/-- Try to match `(\d+) *(unit)s?` at the current position, returning the
captured groups and the rest of the input after the match. -/
def matchPhraseAt (s : List Char) : Option ((ℕ × TUnit) × List Char) :=
  match s with
  | [] => none
  | c :: rest =>
    if c.isDigit then
      let x := takeMaxDigits (c.toNat - 48) rest
      match matchUnitWord (dropSpaces x.2) with
      | some (u, r2) =>
        let r3 := match r2 with
          | 's' :: t => t
          | _ => r2
        some ((x.1, u), r3)
      | none => none
    else none

/-- `re.findall` scanning: try a match at each position, continuing after a
match or advancing one character otherwise (fuelled by the input length;
every match consumes at least one character). -/
def findallTdAux : ℕ → List Char → List (ℕ × TUnit)
  | 0, _ => []
  | _ + 1, [] => []
  | f + 1, c :: rest =>
    match matchPhraseAt (c :: rest) with
    | some (m, r) => m :: findallTdAux f r
    | none => findallTdAux f rest

/-- All `<integer> <unit>` phrases of the input, left to right. -/
def findallTd (s : List Char) : List (ℕ × TUnit) :=
  findallTdAux s.length s

/-- The value for a unit in the dict comprehensions of `get_dt`: the last
phrase for that unit wins; `dfl` is the default when the unit is absent. -/
def lastUnit (ms : List (ℕ × TUnit)) (u : TUnit) (dfl : ℕ) : ℕ :=
  (ms.foldl (fun acc p => if p.2 = u then some p.1 else acc) none).getD dfl

/-- The month-borrow loop of `get_dt` with an explicit iteration budget; each
pass adds 12 to the month and borrows one year. -/
def normalizeMonthAux : ℕ → ℤ → ℤ → ℤ × ℤ
  | 0, y, m => (y, m)
  | f + 1, y, m => if m ≤ 0 then normalizeMonthAux f (y - 1) (m + 12) else (y, m)

/-- The month-borrow loop of `get_dt`: `while month <= 0: month += 12; year -= 1`.
The budget `(1 - m).toNat` always suffices since the month grows by 12 per
pass while the budget shrinks by 1. -/
def normalizeMonth (y m : ℤ) : ℤ × ℤ :=
  normalizeMonthAux (1 - m).toNat y m

/-- The total seconds of `timedelta(weeks=…, days=…, hours=…, minutes=…,
seconds=…)` built from the matched phrases. -/
def tdeltaSeconds (ms : List (ℕ × TUnit)) : ℤ :=
  ((lastUnit ms .week 0 : ℤ) * 7 + (lastUnit ms .day 0 : ℤ)) * 86400 +
    (lastUnit ms .hour 0 : ℤ) * 3600 + (lastUnit ms .minute 0 : ℤ) * 60 +
    (lastUnit ms .second 0 : ℤ)

/-- `get_dt(reachback)`: try the anchored partial-datetime pattern first
(missing month/day default to 1, missing hour/minute/second to 0); otherwise
collect `<integer> <unit>` phrases, subtract the fixed-duration units from
`now`, then subtract months/years with the borrow loop; if neither pattern
produces anything, `datetime(*dt_args)` hits the unbound local `dt_args`
(a `NameError` at run time).  `now` is the value of `datetime.now()`. -/
def get_dt (now : Datetime) (reachback : String) : Except PyErr Datetime :=
  match matchDatetime reachback.toList with
  | some (y, gs) =>
    let g2 := (gs.getD 0 none).getD 1
    let g3 := (gs.getD 1 none).getD 1
    let g4 := (gs.getD 2 none).getD 0
    let g5 := (gs.getD 3 none).getD 0
    let g6 := (gs.getD 4 none).getD 0
    mkDatetime (y : ℤ) (g2 : ℤ) (g3 : ℤ) (g4 : ℤ) (g5 : ℤ) (g6 : ℤ)
  | none =>
    match findallTd reachback.toList with
    | [] => .error (.nameError "dt_args")
    | m0 :: mrest =>
      let ms := m0 :: mrest
      match subSeconds now (tdeltaSeconds ms) with
      | .error e => .error e
      | .ok base =>
        let ym := normalizeMonth (base.year - (lastUnit ms .year 0 : ℤ))
          (base.month - (lastUnit ms .month 0 : ℤ))
        mkDatetime ym.1 ym.2 base.day base.hour base.minute base.second

example : get_dt ⟨2024, 5, 7, 10, 0, 0⟩ "0001-01-01" = Except.ok ⟨1, 1, 1, 0, 0, 0⟩ := by decide
example : get_dt ⟨2024, 5, 7, 10, 0, 0⟩ "2000-12" = Except.ok ⟨2000, 12, 1, 0, 0, 0⟩ := by decide
example : get_dt ⟨2024, 5, 7, 10, 0, 0⟩ "2000-12-03-04-05-06"
    = Except.ok ⟨2000, 12, 3, 4, 5, 6⟩ := by decide
example : get_dt ⟨2024, 5, 7, 10, 0, 0⟩ "20 years" = Except.ok ⟨2004, 5, 7, 10, 0, 0⟩ := by decide
example : get_dt ⟨2024, 5, 7, 10, 0, 0⟩ "1 week, 2 days" = Except.ok ⟨2024, 4, 28, 10, 0, 0⟩ := by
  decide
example : get_dt ⟨2024, 3, 31, 10, 0, 0⟩ "1 month" = Except.error
    (.valueError "datetime argument out of range") := by decide
example : get_dt ⟨2024, 5, 7, 10, 0, 0⟩ "25 months" = Except.ok ⟨2022, 4, 7, 10, 0, 0⟩ := by decide
example : get_dt ⟨2024, 5, 7, 10, 0, 0⟩ "garbage" = Except.error (.nameError "dt_args") := by
  decide

/-- C10 counterexample: the spec string "2000-13" matches the partial
absolute-date grammar `YYYY[-MM[...]]` (the datetime regex accepts it), yet
`get_dt` raises a `ValueError` from the `datetime` constructor instead of
returning a cutoff timestamp — refuting both "returns an absolute cutoff
timestamp for every spec string matching the grammar" and "fails if and only
if the spec matches neither grammar". -/
theorem c10_counterexample :
    (matchDatetime "2000-13".toList).isSome = true ∧
      get_dt ⟨2024, 5, 7, 10, 0, 0⟩ "2000-13"
        = Except.error (.valueError "datetime argument out of range") := by
  constructor <;> decide

/-- C10 (amended): for a spec matching the partial absolute date grammar,
`get_dt` feeds the captured fields (omitted month/day defaulting to 1,
hour/minute/second to 0) to the `datetime` constructor, which succeeds
exactly when the fields are a valid calendar datetime and raises otherwise;
for a spec with relative-duration phrases it returns the borrow-normalised
shifted datetime under the same validity proviso; and it raises an error
(an unbound-local slip rather than a dedicated malformed-input error) when
the spec matches neither grammar. -/
theorem c10_reachback_grammar (now : Datetime) (s : String) :
    (∀ y gs, matchDatetime s.toList = some (y, gs) →
      get_dt now s = mkDatetime (y : ℤ) ((gs.getD 0 none).getD 1 : ℤ)
        ((gs.getD 1 none).getD 1 : ℤ) ((gs.getD 2 none).getD 0 : ℤ)
        ((gs.getD 3 none).getD 0 : ℤ) ((gs.getD 4 none).getD 0 : ℤ)) ∧
    (∀ y m d hh mm ss9 : ℤ, validDatetime y m d hh mm ss9 →
      mkDatetime y m d hh mm ss9 = Except.ok ⟨y, m, d, hh, mm, ss9⟩) ∧
    (∀ y m d hh mm ss9 : ℤ, ¬ validDatetime y m d hh mm ss9 →
      ∃ e, mkDatetime y m d hh mm ss9 = Except.error e) ∧
    (matchDatetime s.toList = none → findallTd s.toList = [] →
      get_dt now s = Except.error (.nameError "dt_args")) ∧
    (∀ m0 mrest base, matchDatetime s.toList = none → findallTd s.toList = m0 :: mrest →
      subSeconds now (tdeltaSeconds (m0 :: mrest)) = Except.ok base →
      get_dt now s =
        mkDatetime
          (normalizeMonth (base.year - (lastUnit (m0 :: mrest) .year 0 : ℤ))
            (base.month - (lastUnit (m0 :: mrest) .month 0 : ℤ))).1
          (normalizeMonth (base.year - (lastUnit (m0 :: mrest) .year 0 : ℤ))
            (base.month - (lastUnit (m0 :: mrest) .month 0 : ℤ))).2
          base.day base.hour base.minute base.second) := by
  refine ⟨?_, ?_, ?_, ?_, ?_⟩
  · intro y gs hm
    unfold get_dt
    rw [hm]
  · intro y m d hh mm ss9 hv
    unfold mkDatetime
    rw [if_pos hv]
  · intro y m d hh mm ss9 hv
    exact ⟨.valueError "datetime argument out of range", by unfold mkDatetime; rw [if_neg hv]⟩
  · intro hm hf
    unfold get_dt
    rw [hm, hf]
  · intro m0 mrest base hm hf hbase
    unfold get_dt
    rw [hm, hf]
    dsimp only
    rw [hbase]

/-- Witness for C10's amended theorem: "2000-12" parses to the cutoff
2000-12-01 00:00:00. -/
theorem c10_reachback_grammar_witness :
    get_dt ⟨2024, 5, 7, 10, 0, 0⟩ "2000-12" = Except.ok ⟨2000, 12, 1, 0, 0, 0⟩ := by
  have h := c10_reachback_grammar ⟨2024, 5, 7, 10, 0, 0⟩ "2000-12"
  rw [h.1 2000 [some 12, none, none, none, none] (by decide)]
  exact h.2.1 2000 12 1 0 0 0 (by decide)

/-! ### Result cache (m2cache.py wrapper) -/

/-- One inventory record: the parsed timestamp and the storage path. -/
structure CacheEntry where
  dt : Datetime
  cachefilename : String
  deriving DecidableEq, Repr

/-- The state a cache-wrapped operation acts on: the in-memory inventory
(`fingerprint -> list of entries`, a dict modelled as an association list
with unique keys) and the storage directory (`path -> persisted value`). -/
structure CacheState (α : Type) where
  inventory : List (String × List CacheEntry)
  files : List (String × α)
  deriving DecidableEq, Repr

/-- The result of one call of the wrapper: the returned value, the state
afterwards, and whether the wrapped operation was invoked. -/
structure CallResult (α : Type) where
  result : Option α
  state : CacheState α
  invoked : Bool
  deriving DecidableEq, Repr

/-- Association-list lookup (dict access). -/
def lookupA {α : Type} : List (String × α) → String → Option α
  | [], _ => none
  | p :: t, k => if p.1 = k then some p.2 else lookupA t k

/-- Association-list update (dict assignment `d[k] = v`). -/
def setA {α : Type} : List (String × α) → String → α → List (String × α)
  | [], k, v => [(k, v)]
  | p :: t, k, v => if p.1 = k then (k, v) :: t else p :: setA t k v

/-- Remove a key (file deletion from the storage map). -/
def eraseA {α : Type} (l : List (String × α)) (k : String) : List (String × α) :=
  l.filter fun p => p.1 != k

/-- Python `max(entries, key=lambda d: d['dt'])`: left fold keeping the first
of equal maxima, replacing only on strictly greater timestamps. -/
def maxByDtAux (cur : CacheEntry) : List CacheEntry → CacheEntry
  | [] => cur
  | e :: t => maxByDtAux (if cur.dt.toSeconds < e.dt.toSeconds then e else cur) t

/-- A decimal digit character. -/
def digitChar (n : ℕ) : Char := Char.ofNat (48 + n % 10)

/-- Two-digit zero-padded field of `strftime`. -/
def digits2 (n : ℕ) : List Char := [digitChar (n / 10), digitChar n]

/-- Four-digit zero-padded field of `strftime` (`%Y`; datetime years are at
most 9999). -/
def digits4 (n : ℕ) : List Char :=
  [digitChar (n / 1000), digitChar (n / 100), digitChar (n / 10), digitChar n]

/-- `dt.strftime('%Y-%m-%d_%H%M%S')` as a character list. -/
def fmtTsList (dt : Datetime) : List Char :=
  digits4 dt.year.toNat ++ '-' :: digits2 dt.month.toNat ++ '-' :: digits2 dt.day.toNat ++
    '_' :: digits2 dt.hour.toNat ++ digits2 dt.minute.toNat ++ digits2 dt.second.toNat

/-- `dt.strftime('%Y-%m-%d_%H%M%S')`. -/
def fmtTs (dt : Datetime) : String := String.mk (fmtTsList dt)

/-- The storage path built by `to_cache`:
`os.path.join(cachedir, func_name + '_' + fp + dt.strftime('_%Y-%m-%d_%H%M%S'))`
plus the extension (`.pkl` for a non-DataFrame result, which is what the
generic value type models). -/
def cacheFileName (cachedir funcName fp : String) (dt : Datetime) : String :=
  cachedir ++ "/" ++ funcName ++ "_" ++ fp ++ "_" ++ fmtTs dt ++ ".pkl"

/-- `os.remove` over a list of stale paths; a missing file raises
`FileNotFoundError`. -/
def removeAll {α : Type} : List String → List (String × α) → Except PyErr (List (String × α))
  | [], fs => .ok fs
  | p :: ps, fs =>
    if (lookupA fs p).isSome then removeAll ps (eraseA fs p)
    else .error (.fileNotFoundError p)

/-- `wrapper.cache_inventory.get(fp, []).append(entry)`: `dict.get` returns
the stored list when the key is present (so the append lands in the
inventory) but returns the default list literal when it is absent — the
appended entry is then lost and the inventory is unchanged. -/
def appendViaGet (inv : List (String × List CacheEntry)) (fp : String) (e : CacheEntry) :
    List (String × List CacheEntry) :=
  match lookupA inv fp with
  | some l => setA inv fp (l ++ [e])
  | none => inv

/-- The miss path of the wrapper: invoke the operation (its would-be value is
`op`); `None` results are returned uncached; otherwise persist to a freshly
timestamped file, then under single-version retention delete every file
recorded for the fingerprint, clear its inventory entries and append the new
one; under hoard retention only append (via `dict.get`). -/
def cacheMiss {α : Type} (hoard : Bool) (cachedir funcName fp : String)
    (op : Option α) (now : Datetime) (st : CacheState α) : Except PyErr (CallResult α) :=
  match op with
  | none => .ok ⟨none, st, true⟩
  | some r =>
    let fname := cacheFileName cachedir funcName fp now
    let files1 := setA st.files fname r
    if hoard then
      .ok ⟨some r, ⟨appendViaGet st.inventory fp ⟨now, fname⟩, files1⟩, true⟩
    else
      let stale := ((lookupA st.inventory fp).getD []).map fun e => e.cachefilename
      match removeAll stale files1 with
      | .error e => .error e
      | .ok files2 =>
        let inv1 := setA st.inventory fp []
        .ok ⟨some r, ⟨appendViaGet inv1 fp ⟨now, fname⟩, files2⟩, true⟩

/-- One call of an `m2cache`-wrapped operation: if the fingerprint is in the
inventory and the newest entry is at or after `get_dt(reachback)`, load and
load and return the stored value of that entry without invoking the
operation; otherwise
take the miss path.  `get_dt` is only evaluated when the fingerprint is
present (the `and` short-circuits), and `max` of an empty entry list raises. -/
def cacheCall {α : Type} (reachback : String) (hoard : Bool) (cachedir funcName fp : String)
    (op : Option α) (now : Datetime) (st : CacheState α) : Except PyErr (CallResult α) :=
  match lookupA st.inventory fp with
  | none => cacheMiss hoard cachedir funcName fp op now st
  | some [] => .error (.valueError "max() arg is an empty sequence")
  | some (e :: t) =>
    let mre := maxByDtAux e t
    match get_dt now reachback with
    | .error err => .error err
    | .ok cutoff =>
      if cutoff.toSeconds ≤ mre.dt.toSeconds then
        match lookupA st.files mre.cachefilename with
        | some v => .ok ⟨some v, st, false⟩
        | none => .error (.fileNotFoundError mre.cachefilename)
      else cacheMiss hoard cachedir funcName fp op now st

/-- Two consecutive calls of the same wrapped operation with the same
arguments (hence the same fingerprint), threading the state. -/
def callTwice {α : Type} (reachback : String) (hoard : Bool) (cachedir funcName fp : String)
    (op1 op2 : Option α) (now1 now2 : Datetime) (st : CacheState α) :
    Except PyErr (CallResult α × CallResult α) :=
  match cacheCall reachback hoard cachedir funcName fp op1 now1 st with
  | .error e => .error e
  | .ok c1 =>
    match cacheCall reachback hoard cachedir funcName fp op2 now2 c1.state with
    | .error e => .error e
    | .ok c2 => .ok (c1, c2)

example : fmtTs ⟨2020, 1, 2, 3, 4, 5⟩ = "2020-01-02_030405" := by decide

/-- Storage paths built for the same operation and fingerprint at differently
formatted timestamps are distinct. -/
theorem cacheFileName_ne (cachedir fn fp : String) (d1 d2 : Datetime)
    (h : fmtTsList d1 ≠ fmtTsList d2) :
    cacheFileName cachedir fn fp d1 ≠ cacheFileName cachedir fn fp d2 := by
  intro he
  apply h
  unfold cacheFileName fmtTs at he
  have hd := congrArg String.data he
  simp only [String.data_append, List.append_assoc] at hd
  have h1 := List.append_cancel_left hd
  have h2 := List.append_cancel_left h1
  have h3 := List.append_cancel_left h2
  have h4 := List.append_cancel_left h3
  have h5 := List.append_cancel_left h4
  have h6 := List.append_cancel_left h5
  exact List.append_cancel_right h6

/-- C1 (code-bug evaluation): under hoard retention with a fresh fingerprint,
two calls with identical arguments under reachback "1" — whose cutoff
0001-01-01 is at or before the first call store time — both invoke the
wrapped operation: the first call persists its result but its inventory
append is lost (`dict.get(fp, []).append` mutates the default list literal),
so the second call misses instead of loading the stored value. -/
theorem c1_cache_roundtrip_bug :
    (callTwice "1" true "cache" "f" "aaaa" (some 1) (some 2) ⟨2020, 1, 1, 0, 0, 0⟩
        ⟨2020, 1, 2, 0, 0, 0⟩ (⟨[], []⟩ : CacheState ℕ)).map
      (fun p => (p.1.invoked, p.2.invoked, p.2.result)) = Except.ok (true, true, some 2) ∧
    get_dt ⟨2020, 1, 2, 0, 0, 0⟩ "1" = Except.ok ⟨1, 1, 1, 0, 0, 0⟩ ∧
    Datetime.toSeconds ⟨1, 1, 1, 0, 0, 0⟩ ≤ Datetime.toSeconds ⟨2020, 1, 1, 0, 0, 0⟩ := by
  refine ⟨?_, ?_, ?_⟩ <;> decide

/-- C2 (code-bug evaluation): a hoard-mode cache write for a fingerprint with
no inventory entries persists the result to storage (the freshly named file
is present afterwards) but leaves the in-memory inventory unchanged: the
entry appended through `cache_inventory.get(fp, [])` lands in the default
list literal and is discarded, contradicting "appended in every retention
mode and regardless of whether the fingerprint already had entries". -/
theorem c2_cache_inventory_append_bug :
    (cacheCall "1" true "cache" "f" "aaaa" (some 5) ⟨2020, 1, 1, 0, 0, 0⟩
        (⟨[], []⟩ : CacheState ℕ)).map
      (fun r => (r.result, r.invoked, r.state.inventory,
        (lookupA r.state.files (cacheFileName "cache" "f" "aaaa" ⟨2020, 1, 1, 0, 0, 0⟩)).isSome))
      = Except.ok (some 5, true, [], true) := by rfl

/-- C3: starting from an empty cache, after a second cache write for the same
fingerprint (the second call misses because the reachback cutoff lies past
the stored timestamp, and the write timestamps format differently): under
single-version retention the file recorded by the first write is deleted and
the fingerprint inventory is cleared down to the new entry, so exactly one
storage file remains; under hoard retention both files remain on storage. -/
theorem c3_single_version_retention {α : Type} (cachedir fn fp reachback : String)
    (r1 r2 : α) (now1 now2 cut : Datetime)
    (hts : fmtTsList now1 ≠ fmtTsList now2)
    (hcut : get_dt now2 reachback = Except.ok cut)
    (hmiss : ¬ cut.toSeconds ≤ now1.toSeconds) :
    callTwice reachback false cachedir fn fp (some r1) (some r2) now1 now2 ⟨[], []⟩
      = Except.ok
        (⟨some r1, ⟨[(fp, [⟨now1, cacheFileName cachedir fn fp now1⟩])],
            [(cacheFileName cachedir fn fp now1, r1)]⟩, true⟩,
          ⟨some r2, ⟨[(fp, [⟨now2, cacheFileName cachedir fn fp now2⟩])],
            [(cacheFileName cachedir fn fp now2, r2)]⟩, true⟩) ∧
    callTwice reachback true cachedir fn fp (some r1) (some r2) now1 now2 ⟨[], []⟩
      = Except.ok
        (⟨some r1, ⟨[], [(cacheFileName cachedir fn fp now1, r1)]⟩, true⟩,
          ⟨some r2, ⟨[], [(cacheFileName cachedir fn fp now1, r1),
            (cacheFileName cachedir fn fp now2, r2)]⟩, true⟩) := by
  have hne := cacheFileName_ne cachedir fn fp now1 now2 hts
  have hne2 : cacheFileName cachedir fn fp now2 ≠ cacheFileName cachedir fn fp now1 :=
    fun hh => hne hh.symm
  constructor
  · have hcall1 : cacheCall reachback false cachedir fn fp (some r1) now1 (⟨[], []⟩ : CacheState α)
        = Except.ok ⟨some r1, ⟨[(fp, [⟨now1, cacheFileName cachedir fn fp now1⟩])],
            [(cacheFileName cachedir fn fp now1, r1)]⟩, true⟩ := by
      simp [cacheCall, cacheMiss, lookupA, setA, removeAll, appendViaGet]
    have hcall2 : cacheCall reachback false cachedir fn fp (some r2) now2
        (⟨[(fp, [⟨now1, cacheFileName cachedir fn fp now1⟩])],
          [(cacheFileName cachedir fn fp now1, r1)]⟩ : CacheState α)
        = Except.ok ⟨some r2, ⟨[(fp, [⟨now2, cacheFileName cachedir fn fp now2⟩])],
            [(cacheFileName cachedir fn fp now2, r2)]⟩, true⟩ := by
      simp [cacheCall, cacheMiss, lookupA, setA, removeAll, appendViaGet, eraseA, maxByDtAux,
        hcut, hmiss, hne, hne2]
    simp [callTwice, hcall1, hcall2]
  · have hcall1 : cacheCall reachback true cachedir fn fp (some r1) now1 (⟨[], []⟩ : CacheState α)
        = Except.ok ⟨some r1, ⟨[], [(cacheFileName cachedir fn fp now1, r1)]⟩, true⟩ := by
      simp [cacheCall, cacheMiss, lookupA, setA, appendViaGet]
    have hcall2 : cacheCall reachback true cachedir fn fp (some r2) now2
        (⟨[], [(cacheFileName cachedir fn fp now1, r1)]⟩ : CacheState α)
        = Except.ok ⟨some r2, ⟨[], [(cacheFileName cachedir fn fp now1, r1),
            (cacheFileName cachedir fn fp now2, r2)]⟩, true⟩ := by
      simp [cacheCall, cacheMiss, lookupA, setA, appendViaGet, hne]
    simp [callTwice, hcall1, hcall2]

/-- Witness for C3 at two writes one day apart under reachback "3000". -/
theorem c3_single_version_retention_witness :
    callTwice "3000" false "cache" "f" "aaaa" (some 1) (some 2) ⟨2020, 1, 1, 0, 0, 0⟩
        ⟨2020, 1, 2, 0, 0, 0⟩ (⟨[], []⟩ : CacheState ℕ)
      = Except.ok
        (⟨some 1, ⟨[("aaaa", [⟨⟨2020, 1, 1, 0, 0, 0⟩,
            cacheFileName "cache" "f" "aaaa" ⟨2020, 1, 1, 0, 0, 0⟩⟩])],
            [(cacheFileName "cache" "f" "aaaa" ⟨2020, 1, 1, 0, 0, 0⟩, 1)]⟩, true⟩,
          ⟨some 2, ⟨[("aaaa", [⟨⟨2020, 1, 2, 0, 0, 0⟩,
            cacheFileName "cache" "f" "aaaa" ⟨2020, 1, 2, 0, 0, 0⟩⟩])],
            [(cacheFileName "cache" "f" "aaaa" ⟨2020, 1, 2, 0, 0, 0⟩, 2)]⟩, true⟩) :=
  (c3_single_version_retention "cache" "f" "aaaa" "3000" 1 2 ⟨2020, 1, 1, 0, 0, 0⟩
    ⟨2020, 1, 2, 0, 0, 0⟩ ⟨3000, 1, 1, 0, 0, 0⟩ (by decide) (by decide) (by decide)).1

end M2ools
